import Mathlib

/-!
Verification of the stream-transcoding gateway of the http-llm-server
repository.  The Python modules under src/ are shallowly embedded as pure
Lean functions over lists of characters:

* `process_chunk`, `parse_and_prepare_response`, `stream_end_fallback`,
  `handle_tool_results` embed the transcoder of src/server/streaming.py;
* `minimal_fallback_response` embeds `_minimal_fallback_response` of
  src/server/errors.py;
* `get_history`, `record_turn` and the lock-step machine embed the
  conversation store of src/server/conversation.py;
* `session_cleanup_record` embeds the persistence part of
  `session_cleanup_middleware` of src/server/middleware.py;
* `on_shutdown_trace` embeds the ordering of effects in `on_shutdown` of
  src/app.py;
* `initialize_mcp_servers_and_agent` and `initialize_agent` embed the two
  MCP-server registration loops of src/server/agent_setup.py and
  src/server/web_resource.py.

Python strings are `List Char`; Python dicts keyed by strings are
association lists with first-match lookup and in-place update, which
matches dict insertion-order semantics for the operations used.
-/

/-- Approximation of Python `str.strip` whitespace (the ASCII whitespace
characters; the source never feeds non-ASCII whitespace to `strip`). -/
def isSpaceChar (c : Char) : Bool :=
  c == ' ' || c == '\t' || c == '\n' || c == '\r' || c == '\x0b' || c == '\x0c'

/-- Python `s.strip()`. -/
def pyStrip (s : List Char) : List Char :=
  ((s.dropWhile isSpaceChar).reverse.dropWhile isSpaceChar).reverse

/-- Python `s.split(sep, 1)` when `sep` occurs in `s`: the part before the
first occurrence of `sep` and the part after it; `none` when `sep` does not
occur (for nonempty `sep`). -/
def splitOnce (sep : List Char) : List Char → Option (List Char × List Char)
  | [] => if sep.isEmpty then some ([], []) else none
  | c :: rest =>
    if sep.isPrefixOf (c :: rest) then some ([], (c :: rest).drop sep.length)
    else
      match splitOnce sep rest with
      | some (pre, post) => some (c :: pre, post)
      | none => none

/-- Python `sep in s` (substring test). -/
def containsSub (sep : List Char) : List Char → Bool
  | [] => sep.isEmpty
  | c :: rest => sep.isPrefixOf (c :: rest) || containsSub sep rest

/-- Python `s.split(sep, limit)` for nonempty `sep`. -/
def pySplitLimit (sep : List Char) : Nat → List Char → List (List Char)
  | 0, s => [s]
  | l + 1, s =>
    match splitOnce sep s with
    | some (pre, post) => pre :: pySplitLimit sep l post
    | none => [s]

/-- Python `s.split(sep)` for nonempty `sep`; `s.length` splits always
suffice because each occurrence of a nonempty separator consumes at least
one character. -/
def pySplitAll (sep : List Char) (s : List Char) : List (List Char) :=
  pySplitLimit sep s.length s

/-- Python `int(s)` on the strings the server feeds it: optional
surrounding whitespace, optional sign, one or more decimal digits
(digit-group underscores are not modelled; the source never produces
them). -/
def pyInt (s : List Char) : Option Int :=
  let t := pyStrip s
  let core : Bool × List Char :=
    match t with
    | c :: rest => if c == '-' || c == '+' then (c == '-', rest) else (false, t)
    | [] => (false, [])
  if !core.2.isEmpty && core.2.all Char.isDigit then
    let n : Nat := core.2.foldl (fun a c => a * 10 + (c.toNat - 48)) 0
    some (if core.1 then -(n : Int) else (n : Int))
  else none

/-- Python `s.lower()` (ASCII). -/
def pyLower (s : List Char) : List Char := s.map Char.toLower

/-- Python truthiness of an optional string: `None` and `""` are falsy. -/
def optTruthy : Option (List Char) → Bool
  | none => false
  | some s => !s.isEmpty

/-- Python dict `d[k]` lookup (first match; keys built through `dictSet`
are unique). -/
def dictGet {α : Type} (d : List (List Char × α)) (k : List Char) : Option α :=
  (d.find? (fun p => p.1 == k)).map Prod.snd

/-- Python dict `d[k] = v`: replace in place when the key exists, append
otherwise (insertion-order semantics). -/
def dictSet {α : Type} (d : List (List Char × α)) (k : List Char) (v : α) :
    List (List Char × α) :=
  if d.any (fun p => p.1 == k) then
    d.map (fun p => if p.1 == k then (k, v) else p)
  else d ++ [(k, v)]

/-- aiohttp `CIMultiDict.__setitem__`: replace any entry whose key matches
case-insensitively, keeping the newly supplied key casing. -/
def ciSet (d : List (List Char × List Char)) (k v : List Char) :
    List (List Char × List Char) :=
  (d.filter (fun p => !(pyLower p.1 == pyLower k))) ++ [(k, v)]

/-- The two header/body separators recognised by
`StreamingContext.process_chunk` (src/server/streaming.py lines 27 and
283-288): `self.separator` is `"\r\n\r\n"`, the fallback probe is
`"\n\n"`. -/
def separatorCRLF : List Char := ['\r', '\n', '\r', '\n']

def separatorLF : List Char := ['\n', '\n']

/-- Model of the `aiohttp.web.StreamResponse` held by the streaming
context: status/reason/headers, whether `prepare` ran, the session cookie
set via `set_cookie`, and the bytes written so far.  A fresh
`StreamResponse` has status 200 and no headers. -/
structure StreamResponseModel where
  prepared : Bool
  status : Int
  reason : List Char
  headers : List (List Char × List Char)
  cookie_session_id : Option (List Char)
  written : List Char
deriving DecidableEq, Repr

def StreamResponseModel.init : StreamResponseModel :=
  { prepared := false, status := 200, reason := [], headers := [],
    cookie_session_id := none, written := [] }

/-- The mutable per-request state of `StreamingContext`
(src/server/streaming.py lines 16-34); fields not involved in parsing
(timing, usage counters) are omitted. -/
structure StreamingContext where
  response : StreamResponseModel
  body_buffer : List Char
  header_section : List Char
  llm_response_fully_collected_text_for_log : List Char
  model_error_indicator_for_recording : Option (List Char)
  session_id_from_tool_call : Option (List Char)
deriving DecidableEq, Repr

def initContext : StreamingContext :=
  { response := StreamResponseModel.init, body_buffer := [],
    header_section := [], llm_response_fully_collected_text_for_log := [],
    model_error_indicator_for_recording := none,
    session_id_from_tool_call := none }

/-- Line splitting used by `_parse_and_prepare_response`
(src/server/streaming.py lines 332-336): split the header section on
`"\r\n"` when it occurs, otherwise on `"\n"`. -/
def headerLines (header_section : List Char) : List (List Char) :=
  if containsSub ['\r', '\n'] header_section then
    pySplitAll ['\r', '\n'] header_section
  else pySplitAll ['\n'] header_section

/-- Status-line parsing of `_parse_and_prepare_response`
(src/server/streaming.py lines 340-350): `status_line.strip().split(" ", 2)`,
two or three parts with an integer status code; anything else is the
`ValueError` path (`none`). -/
def parseStatusLine (status_line : List Char) : Option (Int × List Char) :=
  let parts := pySplitLimit [' '] 2 (pyStrip status_line)
  if 3 ≤ parts.length then
    match pyInt (parts.getD 1 []) with
    | some code => some (code, parts.getD 2 [])
    | none => none
  else if parts.length = 2 then
    match pyInt (parts.getD 1 []) with
    | some code => some (code, [])
    | none => none
  else none

/-- Header-line parsing of `_parse_and_prepare_response`
(src/server/streaming.py lines 352-358): strip each line, keep lines
containing `": "`, split at the first `": "`, store in a dict. -/
def parseHeaderLines (ls : List (List Char)) : List (List Char × List Char) :=
  ls.foldl
    (fun acc line =>
      let l := pyStrip line
      match splitOnce [':', ' '] l with
      | some (k, v) => dictSet acc k v
      | none => acc)
    []

/-- Application of the parsed headers to the response
(src/server/streaming.py lines 362-366): every parsed header is set on the
response except a key whose lowercase form is `content-length`. -/
def applyParsedHeaders (resp : List (List Char × List Char))
    (hdrs : List (List Char × List Char)) : List (List Char × List Char) :=
  hdrs.foldl
    (fun r kv =>
      if pyLower kv.1 == ("content-length").toList then r else ciSet r kv.1 kv.2)
    resp

/-- `StreamingContext._parse_and_prepare_response`
(src/server/streaming.py lines 326-409).  The success path sets status,
reason and the non-content-length headers, sets the session cookie when a
tool call supplied a session id, prepares the response and writes the
initial body chunk.  A failed status-line parse raises `ValueError`, which
the handler catches by recording `header_parsing_error` and replacing the
response with a fresh prepared 500 `LLM Header Parsing Error` response. -/
def parse_and_prepare_response (ctx : StreamingContext)
    (header_section initial_body_chunk : List Char) : StreamingContext :=
  match parseStatusLine ((headerLines header_section).headD []) with
  | none =>
    { ctx with
      model_error_indicator_for_recording := some (("header_parsing_error").toList),
      response :=
        { prepared := true, status := 500,
          reason := ("LLM Header Parsing Error").toList,
          headers := [], cookie_session_id := none, written := [] } }
  | some (status_code, reason) =>
    let hdrs := parseHeaderLines (headerLines header_section).tail
    { ctx with
      response :=
        { prepared := true, status := status_code,
          reason := pyStrip reason,
          headers := applyParsedHeaders ctx.response.headers hdrs,
          cookie_session_id :=
            if optTruthy ctx.session_id_from_tool_call then
              ctx.session_id_from_tool_call
            else ctx.response.cookie_session_id,
          written := ctx.response.written ++ initial_body_chunk } }

/-- `StreamingContext.process_chunk` (src/server/streaming.py lines
273-324).  Before the response is prepared, append to the buffer and the
raw-text log, look for `"\r\n\r\n"` and then `"\n\n"`, and on a hit split
at the first occurrence of the chosen separator and parse the header
section; after preparation, write the chunk through verbatim. -/
def process_chunk (ctx : StreamingContext) (chunk : List Char) : StreamingContext :=
  if ctx.response.prepared then
    { ctx with response := { ctx.response with written := ctx.response.written ++ chunk } }
  else
    let buf := ctx.body_buffer ++ chunk
    let log := ctx.llm_response_fully_collected_text_for_log ++ chunk
    if containsSub separatorCRLF buf then
      match splitOnce separatorCRLF buf with
      | some (hs, rest) =>
        parse_and_prepare_response
          { ctx with body_buffer := rest, header_section := hs,
                     llm_response_fully_collected_text_for_log := log }
          hs rest
      | none =>
        { ctx with body_buffer := buf,
                   llm_response_fully_collected_text_for_log := log }
    else if containsSub separatorLF buf then
      match splitOnce separatorLF buf with
      | some (hs, rest) =>
        parse_and_prepare_response
          { ctx with body_buffer := rest, header_section := hs,
                     llm_response_fully_collected_text_for_log := log }
          hs rest
      | none =>
        { ctx with body_buffer := buf,
                   llm_response_fully_collected_text_for_log := log }
    else
      { ctx with body_buffer := buf,
                 llm_response_fully_collected_text_for_log := log }

/-- The end-of-stream handling at the tail of
`StreamingContext.stream_agent_response` (src/server/streaming.py lines
126-145): if the response was never prepared but content was buffered,
serve it as `200 OK` with `Content-Type: text/plain; charset=utf-8` and
the buffer as body (aiohttp `set_status(200)` fills in the default reason
`OK`); if nothing was buffered, the response stays unprepared. -/
def stream_end_fallback (ctx : StreamingContext) : StreamingContext :=
  if ctx.response.prepared then ctx
  else if !ctx.body_buffer.isEmpty then
    { ctx with
      response :=
        { ctx.response with
          prepared := true, status := 200, reason := ("OK").toList,
          headers := ciSet ctx.response.headers (("Content-Type").toList)
            (("text/plain; charset=utf-8").toList),
          written := ctx.response.written ++ ctx.body_buffer } }
  else ctx

/-- The outcome the caller distinguishes (src/app.py lines 203-214): an
unprepared response after the stream ends means the LLM produced no valid
HTTP response and the error responder is invoked. -/
inductive TranscodeOutcome where
  | validResponse
  | noValidResponse
deriving DecidableEq, Repr

def transcode_outcome (ctx : StreamingContext) : TranscodeOutcome :=
  if ctx.response.prepared then TranscodeOutcome.validResponse
  else TranscodeOutcome.noValidResponse

/-- Processing a whole stream of text deltas from a fresh context. -/
def run_chunks (chunks : List (List Char)) : StreamingContext :=
  chunks.foldl process_chunk initContext

/-- The text-delta portion of `stream_agent_response`: process every delta,
then apply the end-of-stream fallback. -/
def stream_agent_response (chunks : List (List Char)) : StreamingContext :=
  stream_end_fallback (run_chunks chunks)

/-- `StreamingContext.handle_tool_results` (src/server/streaming.py lines
190-270), after the text content has been extracted from the tool output:
text starting with `HTTP/` is routed through `process_chunk` after
clearing an unflushed buffer; short text containing a hyphen is adopted as
the session id; anything else is ignored. -/
def handle_tool_results (ctx : StreamingContext) (text_content : List Char) :
    StreamingContext :=
  if (("HTTP/").toList).isPrefixOf text_content then
    let ctx2 :=
      if !ctx.body_buffer.isEmpty && !ctx.response.prepared then
        { ctx with body_buffer := [] }
      else ctx
    process_chunk ctx2 text_content
  else if text_content.length < 100 && containsSub ['-'] text_content then
    { ctx with session_id_from_tool_call := some (pyStrip text_content) }
  else ctx

/-- Decimal rendering of a natural number, as Python `str` does for the
status codes interpolated into the fallback body. -/
def natToCharsAux : Nat → Nat → List Char
  | 0, _ => []
  | f + 1, n =>
    if n < 10 then [Char.ofNat (48 + n)]
    else natToCharsAux f (n / 10) ++ [Char.ofNat (48 + n % 10)]

def natToChars (n : Nat) : List Char := natToCharsAux (n + 1) n

/-- Model of an `aiohttp.web.Response` as built by the error responder. -/
structure FallbackResponse where
  status : Nat
  text : List Char
  content_type : List Char
  headers : List (List Char × List Char)
deriving DecidableEq, Repr

/-- `_minimal_fallback_response` (src/server/errors.py lines 144-157): the
tier-3 plain-text fallback body with a `Connection: close` header. -/
def minimal_fallback_response (status_code : Nat) (message error_details : List Char) :
    FallbackResponse :=
  { status := status_code,
    text := ("HTTP ").toList ++ natToChars status_code ++ (" - ").toList ++ message
      ++ ("\n\nError Details: ").toList ++ error_details,
    content_type := ("text/plain").toList,
    headers := [((("Connection").toList), ("close").toList)] }

/-- `final_session_id_for_turn = context.session_id_from_tool_call or
session_id` (src/server/streaming.py line 451), with Python `or`
truthiness. -/
def final_session_id_for_turn (ctx : StreamingContext)
    (session_id : Option (List Char)) : Option (List Char) :=
  if optTruthy ctx.session_id_from_tool_call then ctx.session_id_from_tool_call
  else session_id

/-! ### Lemmas about `splitOnce` and `containsSub` -/

theorem isPrefixOf_append_left (l x y : List Char) (h : l.isPrefixOf x = true) :
    l.isPrefixOf (x ++ y) = true := by
  rw [ List.isPrefixOf_iff_prefix] at h ⊢
  exact h.trans (List.prefix_append x y)

theorem isPrefixOf_of_append_le (l x y : List Char) (hl : l.length ≤ x.length)
    (h : l.isPrefixOf (x ++ y) = true) : l.isPrefixOf x = true := by
  rw [ List.isPrefixOf_iff_prefix, List.prefix_iff_eq_take] at h ⊢
  rw [List.take_append_of_le_length hl] at h
  exact h

theorem splitOnce_eq_append (sep : List Char) :
    ∀ s a b, splitOnce sep s = some (a, b) → s = a ++ sep ++ b := by
  intro s
  induction s with
  | nil =>
    intro a b h
    simp only [splitOnce] at h
    by_cases hs : sep.isEmpty
    · rw [if_pos hs] at h
      rw [List.isEmpty_iff] at hs
      cases h
      simp [hs]
    · rw [if_neg hs] at h
      cases h
  | cons c rest ih =>
    intro a b h
    simp only [splitOnce] at h
    by_cases hp : sep.isPrefixOf (c :: rest)
    · rw [if_pos hp] at h
      rw [ List.isPrefixOf_iff_prefix] at hp
      obtain ⟨t, ht⟩ := hp
      cases h
      simp only [List.nil_append]
      rw [← ht, List.drop_left]
    · rw [if_neg hp] at h
      cases hrec : splitOnce sep rest with
      | none => rw [hrec] at h; cases h
      | some pr =>
        rw [hrec] at h
        obtain ⟨pre, post⟩ := pr
        cases h
        have := ih pre b hrec
        simp [this]

theorem splitOnce_some_sep_le (sep s a b : List Char)
    (h : splitOnce sep s = some (a, b)) : sep.length ≤ s.length := by
  have := splitOnce_eq_append sep s a b h
  subst this
  simp only [List.length_append]
  omega

theorem splitOnce_append_right (sep : List Char) :
    ∀ s t a b, splitOnce sep s = some (a, b) →
      splitOnce sep (s ++ t) = some (a, b ++ t) := by
  intro s
  induction s with
  | nil =>
    intro t a b h
    simp only [splitOnce] at h
    by_cases hs : sep.isEmpty
    · rw [if_pos hs] at h
      rw [List.isEmpty_iff] at hs
      cases h
      subst hs
      cases t with
      | nil => simp [splitOnce]
      | cons c r => simp [splitOnce, List.isPrefixOf]
    · rw [if_neg hs] at h
      cases h
  | cons c rest ih =>
    intro t a b h
    simp only [splitOnce] at h
    rw [List.cons_append]
    by_cases hp : sep.isPrefixOf (c :: rest)
    · rw [if_pos hp] at h
      cases h
      have hple : sep.length ≤ (c :: rest).length :=
        ( List.isPrefixOf_iff_prefix.mp hp).length_le
      have hp2 : sep.isPrefixOf (c :: (rest ++ t)) = true := by
        have := isPrefixOf_append_left sep (c :: rest) t hp
        simpa using this
      simp only [splitOnce]
      rw [if_pos hp2]
      rw [show c :: (rest ++ t) = (c :: rest) ++ t from rfl]
      rw [List.drop_append_eq_append_drop]
      rw [Nat.sub_eq_zero_of_le hple, List.drop_zero]
    · rw [if_neg hp] at h
      cases hrec : splitOnce sep rest with
      | none => rw [hrec] at h; cases h
      | some pr =>
        obtain ⟨pre, post⟩ := pr
        rw [hrec] at h
        cases h
        have hle : sep.length ≤ rest.length := splitOnce_some_sep_le sep rest pre b hrec
        have hnp : ¬ sep.isPrefixOf (c :: (rest ++ t)) = true := by
          intro hcontra
          apply hp
          apply isPrefixOf_of_append_le sep (c :: rest) t
          · simpa using Nat.le_succ_of_le hle
          · simpa using hcontra
        simp only [splitOnce]
        rw [if_neg hnp, ih t pre b hrec]

theorem containsSub_eq_isSome (sep : List Char) :
    ∀ s, containsSub sep s = (splitOnce sep s).isSome := by
  intro s
  induction s with
  | nil =>
    simp only [containsSub, splitOnce]
    by_cases hs : sep.isEmpty
    · rw [if_pos hs, hs]; rfl
    · rw [if_neg hs]
      simp only [Option.isSome_none]
      exact Bool.eq_false_iff.mpr hs
  | cons c rest ih =>
    simp only [containsSub, splitOnce]
    by_cases hp : sep.isPrefixOf (c :: rest)
    · rw [if_pos hp, hp]; rfl
    · rw [if_neg hp]
      have hpf : sep.isPrefixOf (c :: rest) = false := Bool.eq_false_iff.mpr hp
      rw [hpf, Bool.false_or, ih]
      cases splitOnce sep rest with
      | none => rfl
      | some pr => rfl

theorem containsSub_append_right (sep s t : List Char)
    (h : containsSub sep s = true) : containsSub sep (s ++ t) = true := by
  rw [containsSub_eq_isSome] at h ⊢
  cases hsp : splitOnce sep s with
  | none => rw [hsp] at h; cases h
  | some pr =>
    obtain ⟨a, b⟩ := pr
    rw [splitOnce_append_right sep s t a b hsp]
    rfl

/-! ### C1: chunking invariance of the header/body split -/

def c1Target : List Char :=
  ("HTTP/1.1 200 OK\r\nContent-Type: text/plain\r\n\r\nHello").toList

theorem c1_len : c1Target.length = 50 := by decide

theorem c1_no_sep4 : containsSub separatorCRLF (c1Target.take 44) = false := by decide

theorem c1_no_sep2 : containsSub separatorLF (c1Target.take 44) = false := by decide

theorem c1_split45 : splitOnce separatorCRLF (c1Target.take 45) = some (c1Target.take 41, []) := by decide

theorem c1_contains45 : containsSub separatorCRLF (c1Target.take 45) = true := by decide

theorem c1_headerLines : headerLines (c1Target.take 41) =
    [("HTTP/1.1 200 OK").toList, ("Content-Type: text/plain").toList] := by decide

theorem c1_statusLine : parseStatusLine (("HTTP/1.1 200 OK").toList) = some (200, ("OK").toList) := by decide

theorem c1_hdrs : parseHeaderLines [("Content-Type: text/plain").toList] =
    [(("Content-Type").toList, ("text/plain").toList)] := by decide

theorem c1_drop45 : c1Target.drop 45 = ("Hello").toList := by decide

theorem c1_reason : pyStrip (("OK").toList) = ("OK").toList := by decide

theorem c1_apply : applyParsedHeaders [] [(("Content-Type").toList, ("text/plain").toList)] =
    [(("Content-Type").toList, ("text/plain").toList)] := by decide

theorem c1_parse (ctx : StreamingContext) (body : List Char)
    (hh : ctx.response.headers = []) (hw : ctx.response.written = [])
    (hs : ctx.session_id_from_tool_call = none) :
    parse_and_prepare_response ctx (c1Target.take 41) body =
      { ctx with
        response :=
          { prepared := true, status := 200, reason := ("OK").toList,
            headers := [(("Content-Type").toList, ("text/plain").toList)],
            cookie_session_id := ctx.response.cookie_session_id,
            written := body } } := by
  simp only [parse_and_prepare_response, c1_headerLines, List.headD_cons, c1_statusLine,
    List.tail_cons, c1_hdrs, c1_reason, hh, hw, hs, c1_apply, optTruthy, Bool.false_eq_true,
    if_false, List.nil_append]

def c1Inv (n : Nat) (ctx : StreamingContext) : Prop :=
  if n < 45 then
    ctx.response.prepared = false ∧ ctx.body_buffer = c1Target.take n ∧
    ctx.response.headers = [] ∧ ctx.response.written = [] ∧
    ctx.session_id_from_tool_call = none
  else
    ctx.response.prepared = true ∧ ctx.response.status = 200 ∧
    ctx.response.headers = [(("Content-Type").toList, ("text/plain").toList)] ∧
    ctx.response.written = (c1Target.take n).drop 45

theorem c1_step (n : Nat) (c : List Char) (ctx : StreamingContext)
    (hn : n + c.length ≤ 50)
    (hc : c = (c1Target.drop n).take c.length)
    (hInv : c1Inv n ctx) :
    c1Inv (n + c.length) (process_chunk ctx c) := by
  by_cases h45 : n < 45
  · rw [c1Inv, if_pos h45] at hInv
    obtain ⟨hprep, hbuf, hhdr, hwr, hsid⟩ := hInv
    have hbufc : ctx.body_buffer ++ c = c1Target.take (n + c.length) := by
      rw [List.take_add, hbuf]
      congr 1
      try exact hc
    simp only [process_chunk, hprep, Bool.false_eq_true, if_false, hbufc]
    by_cases h45m : n + c.length < 45
    · have hcontains4 : containsSub separatorCRLF (c1Target.take (n + c.length)) = false := by
        by_contra hcon
        rw [Bool.not_eq_false] at hcon
        have h44 : containsSub separatorCRLF (c1Target.take 44) = true := by
          have heq : c1Target.take 44 =
              c1Target.take (n + c.length) ++
                (c1Target.drop (n + c.length)).take (44 - (n + c.length)) := by
            rw [← List.take_add]
            congr 1
            omega
          rw [heq]
          exact containsSub_append_right _ _ _ hcon
        rw [c1_no_sep4] at h44
        cases h44
      have hcontains2 : containsSub separatorLF (c1Target.take (n + c.length)) = false := by
        by_contra hcon
        rw [Bool.not_eq_false] at hcon
        have h44 : containsSub separatorLF (c1Target.take 44) = true := by
          have heq : c1Target.take 44 =
              c1Target.take (n + c.length) ++
                (c1Target.drop (n + c.length)).take (44 - (n + c.length)) := by
            rw [← List.take_add]
            congr 1
            omega
          rw [heq]
          exact containsSub_append_right _ _ _ hcon
        rw [c1_no_sep2] at h44
        cases h44
      rw [if_neg (by simp [hcontains4]), if_neg (by simp [hcontains2])]
      rw [c1Inv, if_pos h45m]
      refine ⟨?_, ?_, ?_, ?_, ?_⟩ <;>
        first
        | rfl
        | exact hprep
        | exact hhdr
        | exact hwr
        | exact hsid
    · have hcontains4 : containsSub separatorCRLF (c1Target.take (n + c.length)) = true := by
        have heq : c1Target.take (n + c.length) =
            c1Target.take 45 ++ (c1Target.drop 45).take (n + c.length - 45) := by
          rw [← List.take_add]
          congr 1
          omega
        rw [heq]
        exact containsSub_append_right _ _ _ c1_contains45
      have hsplit : splitOnce separatorCRLF (c1Target.take (n + c.length)) =
          some (c1Target.take 41, (c1Target.drop 45).take (n + c.length - 45)) := by
        have heq : c1Target.take (n + c.length) =
            c1Target.take 45 ++ (c1Target.drop 45).take (n + c.length - 45) := by
          rw [← List.take_add]
          congr 1
          omega
        rw [heq]
        have := splitOnce_append_right separatorCRLF (c1Target.take 45)
          ((c1Target.drop 45).take (n + c.length - 45)) (c1Target.take 41) [] c1_split45
        simpa using this
      rw [if_pos hcontains4]
      simp only [hsplit]
      rw [c1_parse]
      · rw [c1Inv, if_neg (by omega)]
        refine ⟨rfl, rfl, rfl, ?_⟩
        show (c1Target.drop 45).take (n + c.length - 45) = (c1Target.take (n + c.length)).drop 45
        rw [List.drop_take]
      · exact hhdr
      · exact hwr
      · exact hsid
  · rw [c1Inv, if_neg h45] at hInv
    obtain ⟨hprep, hstat, hhdr, hwr⟩ := hInv
    simp only [process_chunk, hprep, if_true]
    rw [c1Inv, if_neg (by omega)]
    refine ⟨rfl, hstat, hhdr, ?_⟩
    show ctx.response.written ++ c = (c1Target.take (n + c.length)).drop 45
    have h1 : (c1Target.take n).length = n := by
      rw [List.length_take, c1_len]
      omega
    rw [hwr, List.take_add, List.drop_append_eq_append_drop, h1,
      Nat.sub_eq_zero_of_le (by omega), List.drop_zero]
    congr 1
    try exact hc

theorem c1_run : ∀ (chunks : List (List Char)) (n : Nat) (ctx : StreamingContext),
    c1Inv n ctx → n + (chunks.flatten).length ≤ 50 →
    chunks.flatten = (c1Target.drop n).take (chunks.flatten).length →
    c1Inv (n + (chunks.flatten).length) (chunks.foldl process_chunk ctx) := by
  intro chunks
  induction chunks with
  | nil =>
    intro n ctx hInv _ _
    simpa using hInv
  | cons c cs ih =>
    intro n ctx hInv hle hjoin
    have hjc : (c :: cs).flatten = c ++ cs.flatten := by simp
    rw [hjc] at hjoin hle ⊢
    rw [List.length_append] at hjoin hle ⊢
    have hsplit2 : (c1Target.drop n).take (c.length + cs.flatten.length) =
        (c1Target.drop n).take c.length ++
          (c1Target.drop (n + c.length)).take cs.flatten.length := by
      rw [List.take_add]
      congr 1
      rw [List.drop_drop]
    rw [hsplit2] at hjoin
    have hlen1 : ((c1Target.drop n).take c.length).length = c.length := by
      rw [List.length_take, List.length_drop, c1_len]
      omega
    have hparts := List.append_inj hjoin (by rw [hlen1])
    have hstep := c1_step n c ctx (by omega) hparts.1 hInv
    have hrec := ih (n + c.length) (process_chunk ctx c) hstep (by omega) hparts.2
    rw [List.foldl_cons]
    have harr : n + (c.length + cs.flatten.length) = n + c.length + cs.flatten.length := by
      omega
    rw [harr]
    exact hrec

/-- C1: chunking invariance of the header/body split.  For every partition
of the text `HTTP/1.1 200 OK\r\nContent-Type: text/plain\r\n\r\nHello`
into a sequence of nonempty chunks, feeding the chunks in order to
`process_chunk` yields a prepared response with status 200, exactly the
header `Content-Type: text/plain`, and body `Hello`, regardless of where
the chunk boundaries fall. -/
theorem c1_chunking_invariance (chunks : List (List Char))
    (hne : ∀ ch ∈ chunks, ch ≠ ([] : List Char))
    (hjoin : chunks.flatten = c1Target) :
    (run_chunks chunks).response.prepared = true ∧
    (run_chunks chunks).response.status = 200 ∧
    (run_chunks chunks).response.headers =
      [(("Content-Type").toList, ("text/plain").toList)] ∧
    (run_chunks chunks).response.written = ("Hello").toList := by
  have h0 : c1Inv 0 initContext := by
    rw [c1Inv, if_pos (by omega)]
    exact ⟨rfl, rfl, rfl, rfl, rfl⟩
  have hlen : chunks.flatten.length = 50 := by rw [hjoin, c1_len]
  have hfull : chunks.flatten = (c1Target.drop 0).take chunks.flatten.length := by
    rw [hlen, List.drop_zero, hjoin]
    rw [show (50 : Nat) = c1Target.length from c1_len.symm]
    exact (List.take_length c1Target).symm
  have hfin := c1_run chunks 0 initContext h0 (by omega) hfull
  rw [hlen] at hfin
  rw [c1Inv, if_neg (by omega)] at hfin
  obtain ⟨h1, h2, h3, h4⟩ := hfin
  refine ⟨h1, h2, h3, ?_⟩
  show (chunks.foldl process_chunk initContext).response.written = ("Hello").toList
  rw [h4]
  decide

def c1WitnessChunks : List (List Char) :=
  [("HTTP/1.1 200 OK\r\nContent-Ty").toList, ("pe: text/plain\r\n\r\nHe").toList,
   ("llo").toList]

theorem c1_chunking_invariance_witness :
    (∀ ch ∈ c1WitnessChunks, ch ≠ ([] : List Char)) ∧
    c1WitnessChunks.flatten = c1Target ∧
    ((run_chunks c1WitnessChunks).response.prepared = true ∧
     (run_chunks c1WitnessChunks).response.status = 200 ∧
     (run_chunks c1WitnessChunks).response.headers =
       [(("Content-Type").toList, ("text/plain").toList)] ∧
     (run_chunks c1WitnessChunks).response.written = ("Hello").toList) :=
  ⟨by decide, by decide,
    c1_chunking_invariance c1WitnessChunks (by decide) (by decide)⟩

/-! ### C2 -/

/-- C2 counterexample: a stream that ends while buffering text that does
not start with a status-line token does NOT yield `NoValidResponse` when
the buffer is nonempty -- the transcoder itself serves the buffer as a
prepared 200 text/plain response. -/
theorem c2_counterexample :
    (run_chunks [("hello world").toList]).response.prepared = false ∧
    (("HTTP/").toList).isPrefixOf (run_chunks [("hello world").toList]).body_buffer = false ∧
    transcode_outcome (stream_agent_response [("hello world").toList]) ≠
      TranscodeOutcome.noValidResponse ∧
    (stream_agent_response [("hello world").toList]).response.status = 200 ∧
    (stream_agent_response [("hello world").toList]).response.written =
      ("hello world").toList := by decide

theorem containsSub_refl_http500 :
    containsSub (("HTTP 500").toList) (("HTTP 500 - ").toList) = true := by decide

/-- C2 amended: at end of stream while still buffering, the outcome is
`NoValidResponse` exactly when the buffer is empty; a nonempty buffer is
served by the transcoder as a prepared 200 response carrying a
`Content-Type: text/plain; charset=utf-8` header, with the buffer as
body.  The Error Responder tier-3 fallback for status 500 produces a body
containing the text `HTTP 500` and carries a `Connection: close`
header. -/
theorem c2_amended (ctx : StreamingContext) (m d : List Char)
    (hprep : ctx.response.prepared = false) :
    (ctx.body_buffer = [] →
      transcode_outcome (stream_end_fallback ctx) = TranscodeOutcome.noValidResponse) ∧
    (ctx.body_buffer ≠ [] →
      (stream_end_fallback ctx).response.prepared = true ∧
      (stream_end_fallback ctx).response.status = 200 ∧
      ((("Content-Type").toList, ("text/plain; charset=utf-8").toList) ∈
        (stream_end_fallback ctx).response.headers) ∧
      (stream_end_fallback ctx).response.written =
        ctx.response.written ++ ctx.body_buffer) ∧
    containsSub (("HTTP 500").toList) (minimal_fallback_response 500 m d).text = true ∧
    (minimal_fallback_response 500 m d).headers =
      [((("Connection").toList), ("close").toList)] := by
  refine ⟨?_, ?_, ?_, ?_⟩
  · intro hb
    simp [stream_end_fallback, transcode_outcome, hprep, hb]
  · intro hb
    simp [stream_end_fallback, hprep, List.isEmpty_iff, hb, ciSet]
  · have htext : (minimal_fallback_response 500 m d).text =
        ("HTTP 500 - ").toList ++ (m ++ (("\n\nError Details: ").toList ++ d)) := by
      simp [minimal_fallback_response, natToChars, natToCharsAux]
    rw [htext]
    have h0 : containsSub (("HTTP 500").toList) (("HTTP 500 - ").toList ++
        (m ++ (("\n\nError Details: ").toList ++ d))) = true :=
      containsSub_append_right _ _ _ containsSub_refl_http500
    exact h0
  · rfl

theorem c2_amended_witness :
    ((run_chunks [("hello world").toList]).response.prepared = false ∧
     (run_chunks [("hello world").toList]).body_buffer ≠ [] ∧
     initContext.response.prepared = false ∧
     initContext.body_buffer = []) ∧
    (((run_chunks [("hello world").toList]).body_buffer = [] →
      transcode_outcome (stream_end_fallback (run_chunks [("hello world").toList])) =
        TranscodeOutcome.noValidResponse) ∧
     ((run_chunks [("hello world").toList]).body_buffer ≠ [] →
      (stream_end_fallback (run_chunks [("hello world").toList])).response.prepared = true ∧
      (stream_end_fallback (run_chunks [("hello world").toList])).response.status = 200 ∧
      ((("Content-Type").toList, ("text/plain; charset=utf-8").toList) ∈
        (stream_end_fallback (run_chunks [("hello world").toList])).response.headers) ∧
      (stream_end_fallback (run_chunks [("hello world").toList])).response.written =
        (run_chunks [("hello world").toList]).response.written ++
          (run_chunks [("hello world").toList]).body_buffer) ∧
     containsSub (("HTTP 500").toList)
       (minimal_fallback_response 500 (("Internal Server Error").toList)
         (("x").toList)).text = true ∧
     (minimal_fallback_response 500 (("Internal Server Error").toList)
       (("x").toList)).headers = [((("Connection").toList), ("close").toList)]) ∧
    ((initContext.body_buffer = [] →
      transcode_outcome (stream_end_fallback initContext) =
        TranscodeOutcome.noValidResponse) ∧
     (initContext.body_buffer ≠ [] →
      (stream_end_fallback initContext).response.prepared = true ∧
      (stream_end_fallback initContext).response.status = 200 ∧
      ((("Content-Type").toList, ("text/plain; charset=utf-8").toList) ∈
        (stream_end_fallback initContext).response.headers) ∧
      (stream_end_fallback initContext).response.written =
        initContext.response.written ++ initContext.body_buffer) ∧
     containsSub (("HTTP 500").toList)
       (minimal_fallback_response 500 (("Internal Server Error").toList)
         (("x").toList)).text = true ∧
     (minimal_fallback_response 500 (("Internal Server Error").toList)
       (("x").toList)).headers = [((("Connection").toList), ("close").toList)]) :=
  ⟨⟨by decide, by decide, by decide, by decide⟩,
    c2_amended (run_chunks [("hello world").toList])
      (("Internal Server Error").toList) (("x").toList) (by decide),
    c2_amended initContext
      (("Internal Server Error").toList) (("x").toList) (by decide)⟩

/-! ### C3 -/

def c3Input : List Char :=
  ("HTTP/1.1 200 OK\r\nConnection: close\r\nTransfer-Encoding: chunked\r\nContent-Length: 5\r\n\r\nhi").toList

/-- C3 counterexample: for a header block carrying `Connection: close`
and `Transfer-Encoding: chunked`, both headers ARE applied to the
outbound response; only `Content-Length` is stripped. -/
theorem c3_counterexample :
    ((("Connection").toList, ("close").toList) ∈
      (process_chunk initContext c3Input).response.headers) ∧
    ((("Transfer-Encoding").toList, ("chunked").toList) ∈
      (process_chunk initContext c3Input).response.headers) ∧
    ((process_chunk initContext c3Input).response.headers.all
      (fun p => !(pyLower p.1 == ("content-length").toList))) = true := by decide

def ciKeyMem (k : List Char) (d : List (List Char × List Char)) : Prop :=
  ∃ p ∈ d, pyLower p.1 = pyLower k

theorem ciKeyMem_ciSet (k a v : List Char) (d : List (List Char × List Char)) :
    ciKeyMem k (ciSet d a v) ↔ (pyLower a = pyLower k ∨ ciKeyMem k d) := by
  simp only [ciKeyMem, ciSet, List.mem_append, List.mem_filter, List.mem_singleton]
  constructor
  · rintro ⟨p, hp, hpk⟩
    rcases hp with ⟨hpd, hne⟩ | hpa
    · exact Or.inr ⟨p, hpd, hpk⟩
    · subst hpa
      exact Or.inl hpk
  · rintro (hak | ⟨p, hpd, hpk⟩)
    · exact ⟨(a, v), Or.inr rfl, hak⟩
    · by_cases hpa : pyLower p.1 = pyLower a
      · exact ⟨(a, v), Or.inr rfl, hpa ▸ hpk⟩
      · refine ⟨p, Or.inl ⟨hpd, ?_⟩, hpk⟩
        simp [hpa]

theorem ciKeyMem_cons (k : List Char) (p : List Char × List Char)
    (rest : List (List Char × List Char)) :
    ciKeyMem k (p :: rest) ↔ (pyLower p.1 = pyLower k ∨ ciKeyMem k rest) := by
  simp only [ciKeyMem, List.mem_cons]
  constructor
  · rintro ⟨q, hq | hq, hqk⟩
    · subst hq; exact Or.inl hqk
    · exact Or.inr ⟨q, hq, hqk⟩
  · rintro (h | ⟨q, hq, hqk⟩)
    · exact ⟨p, Or.inl rfl, h⟩
    · exact ⟨q, Or.inr hq, hqk⟩

theorem applyParsedHeaders_ciKeyMem (k : List Char) :
    ∀ (hdrs acc : List (List Char × List Char)),
      ciKeyMem k (applyParsedHeaders acc hdrs) ↔
        (ciKeyMem k acc ∨
          (ciKeyMem k hdrs ∧ pyLower k ≠ ("content-length").toList)) := by
  intro hdrs
  induction hdrs with
  | nil =>
    intro acc
    simp [applyParsedHeaders, ciKeyMem]
  | cons p rest ih =>
    intro acc
    have hfold : applyParsedHeaders acc (p :: rest) =
        applyParsedHeaders
          (if pyLower p.1 == ("content-length").toList then acc else ciSet acc p.1 p.2)
          rest := by
      simp [applyParsedHeaders]
    rw [hfold, ih, ciKeyMem_cons]
    by_cases hcl : pyLower p.1 = ("content-length").toList
    · rw [if_pos (by simpa using hcl)]
      constructor
      · rintro (h | h)
        · exact Or.inl h
        · exact Or.inr ⟨Or.inr h.1, h.2⟩
      · rintro (h | ⟨hm | hm, hne⟩)
        · exact Or.inl h
        · exfalso
          apply hne
          rw [← hm, hcl]
        · exact Or.inr ⟨hm, hne⟩
    · rw [if_neg (by simpa using hcl)]
      rw [ciKeyMem_ciSet]
      constructor
      · rintro ((h | h) | h)
        · refine Or.inr ⟨Or.inl h, ?_⟩
          rw [← h]
          exact hcl
        · exact Or.inl h
        · exact Or.inr ⟨Or.inr h.1, h.2⟩
      · rintro (h | ⟨hm | hm, hne⟩)
        · exact Or.inl (Or.inr h)
        · exact Or.inl (Or.inl hm)
        · exact Or.inr ⟨hm, hne⟩

/-- C3 amended: on the successful parse path, a case-insensitive key is
present among the applied response headers exactly when the engine
supplied a header of that name and its lowercase form is not
`content-length`; so only `Content-Length` is stripped while every other
parsed header (including `Connection` and `Transfer-Encoding`) is
forwarded. -/
theorem c3_amended (ctx : StreamingContext) (header_section body : List Char)
    (code : Int) (reason : List Char)
    (hh : ctx.response.headers = [])
    (hok : parseStatusLine ((headerLines header_section).headD []) = some (code, reason)) :
    ∀ k, ciKeyMem k (parse_and_prepare_response ctx header_section body).response.headers ↔
      (ciKeyMem k (parseHeaderLines (headerLines header_section).tail) ∧
       pyLower k ≠ ("content-length").toList) := by
  intro k
  simp only [parse_and_prepare_response, hok]
  rw [hh]
  rw [applyParsedHeaders_ciKeyMem]
  simp [ciKeyMem]

theorem c3_amended_witness :
    (initContext.response.headers = [] ∧
     parseStatusLine ((headerLines (("HTTP/1.1 200 OK\r\nConnection: close").toList)).headD []) =
       some (200, ("OK").toList)) ∧
    (∀ k, ciKeyMem k (parse_and_prepare_response initContext
        (("HTTP/1.1 200 OK\r\nConnection: close").toList) []).response.headers ↔
      (ciKeyMem k (parseHeaderLines
          (headerLines (("HTTP/1.1 200 OK\r\nConnection: close").toList)).tail) ∧
       pyLower k ≠ ("content-length").toList)) :=
  ⟨⟨by decide, by decide⟩,
    c3_amended initContext _ [] 200 (("OK").toList) (by decide) (by decide)⟩

/-! ### C4 -/

def c4Input : List Char := ("HTTP/1.1 OK\r\n\r\nHello").toList

/-- C4 counterexample: a header block whose status line `HTTP/1.1 OK`
has no numeric status code produces a replacement 500 response with
reason `LLM Header Parsing Error` -- not a defaulted 200. -/
theorem c4_counterexample :
    (process_chunk initContext c4Input).response.status = 500 ∧
    ¬(process_chunk initContext c4Input).response.status = 200 ∧
    (process_chunk initContext c4Input).model_error_indicator_for_recording =
      some (("header_parsing_error").toList) ∧
    (process_chunk initContext c4Input).response.reason =
      ("LLM Header Parsing Error").toList := by decide

/-- C4 amended: whenever the status line fails to parse (missing or
non-numeric status code), `parse_and_prepare_response` records the
anomaly `header_parsing_error` and replaces the response with a prepared
500 `LLM Header Parsing Error` response with no headers and empty body;
the status is never defaulted to 200. -/
theorem c4_amended (ctx : StreamingContext) (header_section body : List Char)
    (hfail : parseStatusLine ((headerLines header_section).headD []) = none) :
    (parse_and_prepare_response ctx header_section body).response.status = 500 ∧
    (parse_and_prepare_response ctx header_section body).response.reason =
      ("LLM Header Parsing Error").toList ∧
    (parse_and_prepare_response ctx header_section body).model_error_indicator_for_recording =
      some (("header_parsing_error").toList) ∧
    (parse_and_prepare_response ctx header_section body).response.prepared = true ∧
    (parse_and_prepare_response ctx header_section body).response.written = [] := by
  simp only [parse_and_prepare_response, hfail]
  simp

theorem c4_amended_witness :
    parseStatusLine ((headerLines (("HTTP/1.1 OK").toList)).headD []) = none ∧
    ((parse_and_prepare_response initContext (("HTTP/1.1 OK").toList) (("Hello").toList)).response.status = 500 ∧
     (parse_and_prepare_response initContext (("HTTP/1.1 OK").toList) (("Hello").toList)).response.reason =
       ("LLM Header Parsing Error").toList ∧
     (parse_and_prepare_response initContext (("HTTP/1.1 OK").toList) (("Hello").toList)).model_error_indicator_for_recording =
       some (("header_parsing_error").toList) ∧
     (parse_and_prepare_response initContext (("HTTP/1.1 OK").toList) (("Hello").toList)).response.prepared = true ∧
     (parse_and_prepare_response initContext (("HTTP/1.1 OK").toList) (("Hello").toList)).response.written = []) :=
  ⟨by decide, c4_amended initContext _ _ (by decide)⟩

/-! ### C5 -/

def c5Input : List Char := ("A\n\nB\r\n\r\nC").toList

/-- C5 counterexample: for the buffer `A\n\nB\r\n\r\nC`, in which
`\n\n` occurs strictly before `\r\n\r\n`, the split happens at the
`\r\n\r\n` occurrence: the header section is `A\n\nB`, not `A` as the
claim predicts. -/
theorem c5_counterexample :
    containsSub separatorLF ((("A\n\nB").toList)) = true ∧
    (process_chunk initContext c5Input).header_section = ("A\n\nB").toList ∧
    ¬(process_chunk initContext c5Input).header_section = ("A").toList := by decide

theorem parse_and_prepare_preserves (c : StreamingContext) (h b : List Char) :
    (parse_and_prepare_response c h b).header_section = c.header_section ∧
    (parse_and_prepare_response c h b).body_buffer = c.body_buffer := by
  simp only [parse_and_prepare_response]
  cases parseStatusLine ((headerLines h).headD []) with
  | none => exact ⟨rfl, rfl⟩
  | some pr => exact ⟨rfl, rfl⟩

/-- C5 amended: while buffering, when `\r\n\r\n` occurs anywhere in the
pending buffer the split happens at its first occurrence, even when
`\n\n` occurs strictly earlier (inside the resulting header section);
`\n\n` is consulted only when `\r\n\r\n` is absent. -/
theorem c5_amended (ctx : StreamingContext) (chunk A B : List Char)
    (hprep : ctx.response.prepared = false)
    (hsplit : splitOnce separatorCRLF (ctx.body_buffer ++ chunk) = some (A, B))
    (hlf : containsSub separatorLF A = true) :
    (process_chunk ctx chunk).header_section = A ∧
    (process_chunk ctx chunk).body_buffer = B := by
  have hcontains : containsSub separatorCRLF (ctx.body_buffer ++ chunk) = true := by
    rw [containsSub_eq_isSome, hsplit]
    rfl
  simp only [process_chunk, hprep, Bool.false_eq_true, if_false, hcontains, if_true, hsplit]
  exact parse_and_prepare_preserves _ A B

theorem c5_amended_witness :
    (initContext.response.prepared = false ∧
     splitOnce separatorCRLF (initContext.body_buffer ++ c5Input) =
       some (("A\n\nB").toList, ("C").toList) ∧
     containsSub separatorLF (("A\n\nB").toList) = true) ∧
    ((process_chunk initContext c5Input).header_section = ("A\n\nB").toList ∧
     (process_chunk initContext c5Input).body_buffer = ("C").toList) :=
  ⟨⟨by decide, by decide, by decide⟩,
    c5_amended initContext c5Input (("A\n\nB").toList) (("C").toList)
      (by decide) (by decide) (by decide)⟩

/-! ### Conversation store (src/server/conversation.py) -/

/-- One message of a `ConversationHistory` (src/server/models.py):
role and content; the wall-clock creation timestamp is outside the
embedding. -/
structure ChatMessage where
  role : List Char
  content : List Char
deriving DecidableEq, Repr

/-- The state of `HttpConversationStore`: the histories dict, the token
counts dict, and the keys present in the per-session lock table
(`_session_locks`; a `WeakValueDictionary`, modelled by the set of keys
currently present -- garbage collection of unreferenced locks only removes
entries and is not modelled). -/
structure HttpConversationStore where
  histories : List (List Char × List ChatMessage)
  token_counts : List (List Char × Int)
  session_lock_keys : List (List Char)
deriving DecidableEq, Repr

/-- `HttpConversationStore._get_session_lock` (conversation.py lines
39-57): returns the existing lock for the session or creates a fresh one
under the manager lock.  The store-visible effect is the possible creation
of a lock-table entry. -/
def get_session_lock (store : HttpConversationStore) (session_id : List Char) :
    HttpConversationStore :=
  if store.session_lock_keys.contains session_id then store
  else { store with session_lock_keys := store.session_lock_keys ++ [session_id] }

/-- `HttpConversationStore.get_history` (conversation.py lines 59-63):
under the session lock, return `self._histories.get(session_id,
ConversationHistory())`; the store is returned alongside to expose the
(lock-table-only) state effect. -/
def get_history (store : HttpConversationStore) (session_id : List Char) :
    List ChatMessage × HttpConversationStore :=
  let store1 := get_session_lock store session_id
  ((dictGet store1.histories session_id).getD [], store1)

/-- `HttpConversationStore.record_turn` (conversation.py lines 65-79):
no-op for an empty session id; otherwise, under the session lock,
`setdefault` the history and append the new message. -/
def record_turn (store : HttpConversationStore)
    (session_id role text_content : List Char) : HttpConversationStore :=
  if session_id.isEmpty then store
  else
    let store1 := get_session_lock store session_id
    let history := (dictGet store1.histories session_id).getD []
    { store1 with
      histories := dictSet store1.histories session_id
        (history ++ [{ role := role, content := text_content }]) }

/-- The persistence part of `session_cleanup_middleware`
(src/server/middleware.py lines 338-377): when the final session id is
truthy (and a session store exists), record the user turn with the raw
request text and then the assistant turn with the collected response
text. -/
def session_cleanup_record (store : HttpConversationStore)
    (final_session_id : Option (List Char))
    (raw_request_text assistant_content : List Char) : HttpConversationStore :=
  match final_session_id with
  | none => store
  | some fid =>
    if fid.isEmpty then store
    else
      record_turn (record_turn store fid (("user").toList) raw_request_text)
        fid (("assistant").toList) assistant_content

/-! ### Shutdown ordering (src/app.py `on_shutdown`) -/

/-- One observable effect of `on_shutdown`. -/
inductive ShutdownEvent where
  | flushConversationStore
  | teardownToolServer (name : List Char)
deriving DecidableEq, Repr

/-- `on_shutdown` (src/app.py lines 233-258) as the ordered trace of its
effects: first `save_all_sessions_on_shutdown` when
`config.save_conversations` is set, then `cleanup()` of every entry of
`app["mcp_server_lifecycles"]` in order. -/
def on_shutdown_trace (save_conversations : Bool)
    (mcp_server_lifecycles : List (List Char)) : List ShutdownEvent :=
  (if save_conversations then [ShutdownEvent.flushConversationStore] else [])
    ++ mcp_server_lifecycles.map ShutdownEvent.teardownToolServer

/-! ### MCP server registration (agent_setup.py and web_resource.py) -/

/-- Behaviour of one configured MCP server during registration:
whether the connection handshake succeeds, and the discovered tool
catalog (`none` models `list_tools` raising). -/
structure McpServerSpec where
  name : List Char
  aenter_ok : Bool
  tools : Option (List (List Char))
deriving DecidableEq, Repr

structure McpRegistrationResult where
  mcp_server_lifecycles : List (List Char)
  mcp_servers : List (List Char)
  torn_down : List (List Char)
deriving DecidableEq, Repr

/-- The registration loop of `initialize_mcp_servers_and_agent`
(src/server/agent_setup.py lines 60-101): a failed handshake is caught and
skipped; after a successful handshake the server joins the lifecycle list;
a raising `list_tools` is caught leaving the server in the lifecycle list
only; an empty tool catalog triggers an immediate `__aexit__` teardown and
a `pop` from the lifecycle list; a nonempty catalog adds the server to the
set handed to the agent. -/
def register_external_server (acc : McpRegistrationResult) (spec : McpServerSpec) :
    McpRegistrationResult :=
  if !spec.aenter_ok then acc
  else
    match spec.tools with
    | none =>
      { acc with
        mcp_server_lifecycles := acc.mcp_server_lifecycles ++ [spec.name] }
    | some [] =>
      { acc with torn_down := acc.torn_down ++ [spec.name] }
    | some (_ :: _) =>
      { acc with
        mcp_server_lifecycles := acc.mcp_server_lifecycles ++ [spec.name],
        mcp_servers := acc.mcp_servers ++ [spec.name] }

def initialize_mcp_servers_and_agent (specs : List McpServerSpec) :
    McpRegistrationResult :=
  specs.foldl register_external_server
    { mcp_server_lifecycles := [], mcp_servers := [], torn_down := [] }

/-- The registration loop of `WebServer.initialize_agent`
(src/server/web_resource.py lines 99-162): `connect()` and `list_tools()`
are not wrapped in try/except, so a failure aborts the whole
initialization (`none`); on success the server is appended to
`mcp_servers` and to the lifecycle list unconditionally -- the tool count
is only logged, and a zero-tool server is neither torn down nor
excluded. -/
def web_register_server (acc : Option McpRegistrationResult) (spec : McpServerSpec) :
    Option McpRegistrationResult :=
  match acc with
  | none => none
  | some r =>
    if !spec.aenter_ok then none
    else
      match spec.tools with
      | none => none
      | some _ =>
        some { r with
          mcp_servers := r.mcp_servers ++ [spec.name],
          mcp_server_lifecycles := r.mcp_server_lifecycles ++ [spec.name] }

def initialize_agent (specs : List McpServerSpec) : Option McpRegistrationResult :=
  specs.foldl web_register_server
    (some { mcp_server_lifecycles := [], mcp_servers := [], torn_down := [] })

/-! ### Dictionary lemmas -/

theorem dictGet_map_update {α : Type} (k : List Char) (v : α) (k2 : List Char)
    (hne : (k == k2) = false) :
    ∀ d : List (List Char × α),
      dictGet (d.map (fun q => if q.1 == k then (k, v) else q)) k2 = dictGet d k2 := by
  intro d
  induction d with
  | nil => rfl
  | cons q rest ih =>
    by_cases hq : (q.1 == k) = true
    · have hq1 : q.1 = k := by simpa using hq
      simp only [List.map_cons, hq, if_true, dictGet, List.find?_cons]
      rw [show (k == k2) = false from hne, show (q.1 == k2) = false from by
        rw [hq1]; exact hne]
      exact ih
    · have hqf : (q.1 == k) = false := by simpa using hq
      simp only [List.map_cons, hqf, Bool.false_eq_true, if_false, dictGet,
        List.find?_cons]
      cases hq2 : (q.1 == k2) with
      | true => rfl
      | false => exact ih

theorem dictGet_dictSet_self {α : Type} (k : List Char) (v : α) :
    ∀ d : List (List Char × α), dictGet (dictSet d k v) k = some v := by
  intro d
  induction d with
  | nil => simp [dictSet, dictGet]
  | cons q rest ih =>
    by_cases hq : (q.1 == k) = true
    · have hany : ((q :: rest).any (fun p => p.1 == k)) = true := by
        simp [List.any_cons, hq]
      rw [dictSet, if_pos hany]
      simp only [List.map_cons, hq, if_true, dictGet, List.find?_cons, beq_self_eq_true]
      rfl
    · have hqf : (q.1 == k) = false := by simpa using hq
      by_cases hrest : (rest.any (fun p => p.1 == k)) = true
      · have hany : ((q :: rest).any (fun p => p.1 == k)) = true := by
          simp [List.any_cons, hrest]
        rw [dictSet, if_pos hany]
        simp only [List.map_cons, hqf, Bool.false_eq_true, if_false, dictGet,
          List.find?_cons, hqf]
        have := ih
        rw [dictSet, if_pos hrest] at this
        exact this
      · have hrestf : (rest.any (fun p => p.1 == k)) = false :=
          Bool.eq_false_iff.mpr hrest
        have hany : ((q :: rest).any (fun p => p.1 == k)) = false := by
          rw [List.any_cons, hqf, hrestf]
          rfl
        have hnot : ¬ ((q :: rest).any (fun p => p.1 == k)) = true := by
          rw [hany]
          exact Bool.false_ne_true
        rw [dictSet, if_neg hnot]
        simp only [List.cons_append, dictGet, List.find?_cons, hqf]
        have hih := ih
        rw [dictSet, if_neg hrest] at hih
        exact hih

theorem dictGet_dictSet_ne {α : Type} (k : List Char) (v : α) (k2 : List Char)
    (hne : k2 ≠ k) :
    ∀ d : List (List Char × α), dictGet (dictSet d k v) k2 = dictGet d k2 := by
  intro d
  have hb : (k == k2) = false := beq_eq_false_iff_ne.mpr (Ne.symm hne)
  by_cases hany : (d.any (fun p => p.1 == k)) = true
  · rw [dictSet, if_pos hany]
    exact dictGet_map_update k v k2 hb d
  · rw [dictSet, if_neg hany]
    induction d with
    | nil =>
      simp only [List.nil_append, dictGet, List.find?_cons, hb, List.find?_nil]
    | cons q rest ih =>
      simp only [List.cons_append, dictGet, List.find?_cons]
      cases hq2 : (q.1 == k2) with
      | true => rfl
      | false =>
        apply ih
        intro hr
        apply hany
        simp [List.any_cons, hr]

/-! ### C10 -/

/-- C10: for a session id absent from the histories dict, `get_history`
returns the empty conversation and leaves the histories and token counts
unchanged (only the lock table may gain an entry). -/
theorem c10_get_history_frame (store : HttpConversationStore) (session_id : List Char)
    (hmiss : dictGet store.histories session_id = none) :
    (get_history store session_id).1 = [] ∧
    (get_history store session_id).2.histories = store.histories ∧
    (get_history store session_id).2.token_counts = store.token_counts := by
  unfold get_history get_session_lock
  by_cases h : (store.session_lock_keys.contains session_id) = true
  · rw [if_pos h]
    refine ⟨?_, rfl, rfl⟩
    show (dictGet store.histories session_id).getD [] = []
    rw [hmiss]
    rfl
  · rw [if_neg h]
    refine ⟨?_, rfl, rfl⟩
    show (dictGet store.histories session_id).getD [] = []
    rw [hmiss]
    rfl

theorem c10_get_history_frame_witness :
    dictGet (HttpConversationStore.mk [] [] []).histories (("s1").toList) = none ∧
    ((get_history (HttpConversationStore.mk [] [] []) (("s1").toList)).1 = [] ∧
     (get_history (HttpConversationStore.mk [] [] []) (("s1").toList)).2.histories = [] ∧
     (get_history (HttpConversationStore.mk [] [] []) (("s1").toList)).2.token_counts = []) :=
  ⟨by decide, c10_get_history_frame (HttpConversationStore.mk [] [] []) (("s1").toList) (by decide)⟩

/-! ### C8 -/

/-- C8: on orderly shutdown with conversation saving enabled, the
conversation-store flush occurs strictly before every tool-server
teardown in the effect trace of `on_shutdown`. -/
theorem c8_flush_before_teardown (servers : List (List Char)) (i j : Nat)
    (s : List Char)
    (hflush : (on_shutdown_trace true servers)[i]? =
      some ShutdownEvent.flushConversationStore)
    (htear : (on_shutdown_trace true servers)[j]? =
      some (ShutdownEvent.teardownToolServer s)) :
    i < j := by
  have htr : on_shutdown_trace true servers =
      ShutdownEvent.flushConversationStore ::
        servers.map ShutdownEvent.teardownToolServer := by
    simp [on_shutdown_trace]
  rw [htr] at hflush htear
  cases i with
  | zero =>
    cases j with
    | zero =>
      rw [hflush] at htear
      cases htear
    | succ j => omega
  | succ i =>
    exfalso
    rw [List.getElem?_cons_succ, List.getElem?_map] at hflush
    cases hsv : servers[i]? with
    | none => rw [hsv] at hflush; cases hflush
    | some x =>
      rw [hsv] at hflush
      cases hflush

theorem c8_flush_before_teardown_witness :
    ((on_shutdown_trace true [("srv").toList])[0]? =
      some ShutdownEvent.flushConversationStore) ∧
    ((on_shutdown_trace true [("srv").toList])[1]? =
      some (ShutdownEvent.teardownToolServer (("srv").toList))) ∧
    (0 : Nat) < 1 :=
  ⟨by decide, by decide,
    c8_flush_before_teardown [("srv").toList] 0 1 (("srv").toList)
      (by decide) (by decide)⟩

/-! ### C9 -/

def keepsServer (sp : McpServerSpec) : Bool :=
  sp.aenter_ok &&
    match sp.tools with
    | some (_ :: _) => true
    | _ => false

def emptyToolServer (sp : McpServerSpec) : Bool :=
  sp.aenter_ok &&
    match sp.tools with
    | some [] => true
    | _ => false

theorem register_external_fold (specs : List McpServerSpec) :
    ∀ acc : McpRegistrationResult,
      (specs.foldl register_external_server acc).mcp_servers =
        acc.mcp_servers ++ (specs.filter keepsServer).map McpServerSpec.name ∧
      (specs.foldl register_external_server acc).torn_down =
        acc.torn_down ++ (specs.filter emptyToolServer).map McpServerSpec.name := by
  induction specs with
  | nil => intro acc; simp
  | cons sp rest ih =>
    intro acc
    rw [List.foldl_cons]
    cases hok : sp.aenter_ok with
    | false =>
      have hstep : register_external_server acc sp = acc := by
        rw [register_external_server, hok]
        rfl
      have hk : keepsServer sp = false := by rw [keepsServer, hok]; rfl
      have he : emptyToolServer sp = false := by rw [emptyToolServer, hok]; rfl
      rw [hstep]
      obtain ⟨ih1, ih2⟩ := ih acc
      constructor
      · rw [ih1, List.filter_cons, hk]
        simp
      · rw [ih2, List.filter_cons, he]
        simp
    | true =>
      cases htools : sp.tools with
      | none =>
        have hstep : register_external_server acc sp =
            { acc with
              mcp_server_lifecycles := acc.mcp_server_lifecycles ++ [sp.name] } := by
          rw [register_external_server, hok, htools]
          rfl
        have hk : keepsServer sp = false := by rw [keepsServer, hok, htools]; rfl
        have he : emptyToolServer sp = false := by rw [emptyToolServer, hok, htools]; rfl
        rw [hstep]
        obtain ⟨ih1, ih2⟩ := ih
          { acc with mcp_server_lifecycles := acc.mcp_server_lifecycles ++ [sp.name] }
        constructor
        · rw [ih1, List.filter_cons, hk]
          simp
        · rw [ih2, List.filter_cons, he]
          simp
      | some ts =>
        cases ts with
        | nil =>
          have hstep : register_external_server acc sp =
              { acc with torn_down := acc.torn_down ++ [sp.name] } := by
            rw [register_external_server, hok, htools]
            rfl
          have hk : keepsServer sp = false := by rw [keepsServer, hok, htools]; rfl
          have he : emptyToolServer sp = true := by rw [emptyToolServer, hok, htools]; rfl
          rw [hstep]
          obtain ⟨ih1, ih2⟩ := ih { acc with torn_down := acc.torn_down ++ [sp.name] }
          constructor
          · rw [ih1, List.filter_cons, hk]
            simp
          · rw [ih2, List.filter_cons, he]
            simp
        | cons t ts =>
          have hstep : register_external_server acc sp =
              { acc with
                mcp_server_lifecycles := acc.mcp_server_lifecycles ++ [sp.name],
                mcp_servers := acc.mcp_servers ++ [sp.name] } := by
            rw [register_external_server, hok, htools]
            rfl
          have hk : keepsServer sp = true := by rw [keepsServer, hok, htools]; rfl
          have he : emptyToolServer sp = false := by rw [emptyToolServer, hok, htools]; rfl
          rw [hstep]
          obtain ⟨ih1, ih2⟩ := ih
            { acc with
              mcp_server_lifecycles := acc.mcp_server_lifecycles ++ [sp.name],
              mcp_servers := acc.mcp_servers ++ [sp.name] }
          constructor
          · rw [ih1, List.filter_cons, hk]
            simp
          · rw [ih2, List.filter_cons, he]
            simp

theorem web_register_fold (specs : List McpServerSpec)
    (hok : ∀ sp ∈ specs, sp.aenter_ok = true ∧ sp.tools ≠ none) :
    ∀ r : McpRegistrationResult,
      specs.foldl web_register_server (some r) =
        some { r with
          mcp_servers := r.mcp_servers ++ specs.map McpServerSpec.name,
          mcp_server_lifecycles :=
            r.mcp_server_lifecycles ++ specs.map McpServerSpec.name } := by
  induction specs with
  | nil =>
    intro r
    simp
  | cons sp rest ih =>
    intro r
    obtain ⟨hsp, hrest⟩ : (sp.aenter_ok = true ∧ sp.tools ≠ none) ∧
        ∀ q ∈ rest, q.aenter_ok = true ∧ q.tools ≠ none := by
      constructor
      · exact hok sp (List.mem_cons_self sp rest)
      · intro q hq
        exact hok q (List.mem_cons_of_mem sp hq)
    cases htools : sp.tools with
    | none => exact absurd htools hsp.2
    | some ts =>
      have hstep : web_register_server (some r) sp =
          some { r with
            mcp_servers := r.mcp_servers ++ [sp.name],
            mcp_server_lifecycles := r.mcp_server_lifecycles ++ [sp.name] } := by
        rw [web_register_server, hsp.1, htools]
        rfl
      rw [List.foldl_cons, hstep, ih hrest]
      simp

/-- The original claim fails on `WebServer.initialize_agent`: a server
whose handshake succeeds but whose tool catalog is empty stays in the set
of servers handed to the agent and is never torn down. -/
theorem c9_counterexample :
    initialize_agent
        [{ name := ("empty-tools").toList, aenter_ok := true, tools := some [] }] =
      some { mcp_server_lifecycles := [("empty-tools").toList],
             mcp_servers := [("empty-tools").toList],
             torn_down := [] } := by decide

/-- C9 amended: in `initialize_mcp_servers_and_agent` (app startup) the
servers handed to the agent are exactly those whose handshake succeeded
and whose catalog is nonempty, and the servers torn down immediately are
exactly the handshake-successful zero-tool ones; but
`WebServer.initialize_agent` hands every successfully connected server to
the agent regardless of tool count and tears none down. -/
theorem c9_amended (specs webSpecs : List McpServerSpec)
    (hweb : ∀ sp ∈ webSpecs, sp.aenter_ok = true ∧ sp.tools ≠ none) :
    (initialize_mcp_servers_and_agent specs).mcp_servers =
      (specs.filter keepsServer).map McpServerSpec.name ∧
    (initialize_mcp_servers_and_agent specs).torn_down =
      (specs.filter emptyToolServer).map McpServerSpec.name ∧
    initialize_agent webSpecs =
      some { mcp_server_lifecycles := webSpecs.map McpServerSpec.name,
             mcp_servers := webSpecs.map McpServerSpec.name,
             torn_down := [] } := by
  obtain ⟨h1, h2⟩ := register_external_fold specs
    { mcp_server_lifecycles := [], mcp_servers := [], torn_down := [] }
  refine ⟨?_, ?_, ?_⟩
  · rw [initialize_mcp_servers_and_agent, h1]
    rfl
  · rw [initialize_mcp_servers_and_agent, h2]
    rfl
  · rw [initialize_agent, web_register_fold webSpecs hweb]
    rfl

theorem c9_amended_witness :
    (∀ sp ∈ [McpServerSpec.mk (("w").toList) true (some [])],
        sp.aenter_ok = true ∧ sp.tools ≠ none) ∧
    ((initialize_mcp_servers_and_agent
        [McpServerSpec.mk (("good").toList) true (some [("t").toList]),
         McpServerSpec.mk (("empty").toList) true (some [])]).mcp_servers =
      (([McpServerSpec.mk (("good").toList) true (some [("t").toList]),
         McpServerSpec.mk (("empty").toList) true (some [])].filter
          keepsServer).map McpServerSpec.name) ∧
     (initialize_mcp_servers_and_agent
        [McpServerSpec.mk (("good").toList) true (some [("t").toList]),
         McpServerSpec.mk (("empty").toList) true (some [])]).torn_down =
      (([McpServerSpec.mk (("good").toList) true (some [("t").toList]),
         McpServerSpec.mk (("empty").toList) true (some [])].filter
          emptyToolServer).map McpServerSpec.name) ∧
     initialize_agent [McpServerSpec.mk (("w").toList) true (some [])] =
       some { mcp_server_lifecycles := [("w").toList],
              mcp_servers := [("w").toList],
              torn_down := [] }) :=
  ⟨by decide,
    c9_amended
      [McpServerSpec.mk (("good").toList) true (some [("t").toList]),
       McpServerSpec.mk (("empty").toList) true (some [])]
      [McpServerSpec.mk (("w").toList) true (some [])]
      (by decide)⟩

/-! ### C6 -/

theorem mem_of_containsSub_singleton (ch : Char) (s : List Char)
    (h : containsSub [ch] s = true) : ch ∈ s := by
  rw [containsSub_eq_isSome] at h
  cases hsp : splitOnce [ch] s with
  | none => rw [hsp] at h; cases h
  | some pr =>
    obtain ⟨a, b⟩ := pr
    have hdec := splitOnce_eq_append [ch] s a b hsp
    subst hdec
    simp

theorem mem_dropWhile_of_not (p : Char → Bool) (ch : Char) (hp : p ch = false) :
    ∀ s : List Char, ch ∈ s → ch ∈ s.dropWhile p := by
  intro s
  induction s with
  | nil => intro h; cases h
  | cons x rest ih =>
    intro hmem
    rw [List.dropWhile_cons]
    by_cases hx : p x = true
    · rw [if_pos hx]
      rcases List.mem_cons.mp hmem with h | h
      · subst h
        rw [hp] at hx
        cases hx
      · exact ih h
    · rw [if_neg hx]
      exact hmem

theorem mem_pyStrip (ch : Char) (s : List Char) (hsp : isSpaceChar ch = false)
    (h : ch ∈ s) : ch ∈ pyStrip s := by
  unfold pyStrip
  rw [List.mem_reverse]
  apply mem_dropWhile_of_not _ _ hsp
  rw [List.mem_reverse]
  exact mem_dropWhile_of_not _ _ hsp s h

theorem handle_tool_results_session (ctx : StreamingContext) (text_content : List Char)
    (hpre : (("HTTP/").toList).isPrefixOf text_content = false)
    (hlen : text_content.length < 100)
    (hhy : containsSub ['-'] text_content = true) :
    handle_tool_results ctx text_content =
      { ctx with session_id_from_tool_call := some (pyStrip text_content) } := by
  rw [handle_tool_results, if_neg (by rw [hpre]; exact Bool.false_ne_true),
    if_pos (by simp [hhy, hlen])]

theorem get_session_lock_histories (store : HttpConversationStore) (sid : List Char) :
    (get_session_lock store sid).histories = store.histories := by
  rw [get_session_lock]
  by_cases h : (store.session_lock_keys.contains sid) = true
  · rw [if_pos h]
  · rw [if_neg h]

theorem record_turn_histories (store : HttpConversationStore)
    (sid role text : List Char) (hsid : ¬ sid.isEmpty = true) :
    (record_turn store sid role text).histories =
      dictSet store.histories sid
        ((dictGet store.histories sid).getD [] ++ [{ role := role, content := text }]) := by
  rw [record_turn, if_neg hsid]
  show (dictSet (get_session_lock store sid).histories sid
      ((dictGet (get_session_lock store sid).histories sid).getD [] ++
        [{ role := role, content := text }])) = _
  rw [get_session_lock_histories]

/-- C6: when a tool-call result supplies a session id (short text with a
hyphen that is not an HTTP response), the stripped tool-assigned id is
adopted, wins over the cookie-supplied id in
`final_session_id_for_turn`, and both the user turn and the assistant
turn are persisted under the tool-assigned id, leaving every other
session history (in particular the cookie id, when different)
unchanged. -/
theorem c6_tool_session_id_wins (ctx : StreamingContext) (text_content : List Char)
    (cookie_id : Option (List Char)) (store : HttpConversationStore)
    (raw_request_text assistant_content : List Char)
    (hpre : (("HTTP/").toList).isPrefixOf text_content = false)
    (hlen : text_content.length < 100)
    (hhy : containsSub ['-'] text_content = true) :
    (handle_tool_results ctx text_content).session_id_from_tool_call =
      some (pyStrip text_content) ∧
    final_session_id_for_turn (handle_tool_results ctx text_content) cookie_id =
      some (pyStrip text_content) ∧
    dictGet (session_cleanup_record store
        (final_session_id_for_turn (handle_tool_results ctx text_content) cookie_id)
        raw_request_text assistant_content).histories (pyStrip text_content) =
      some ((dictGet store.histories (pyStrip text_content)).getD [] ++
        [{ role := ("user").toList, content := raw_request_text },
         { role := ("assistant").toList, content := assistant_content }]) ∧
    (∀ sid, sid ≠ pyStrip text_content →
      dictGet (session_cleanup_record store
          (final_session_id_for_turn (handle_tool_results ctx text_content) cookie_id)
          raw_request_text assistant_content).histories sid =
        dictGet store.histories sid) := by
  have hmem : '-' ∈ pyStrip text_content :=
    mem_pyStrip '-' text_content (by decide)
      (mem_of_containsSub_singleton '-' text_content hhy)
  have hnon : ¬ (pyStrip text_content).isEmpty = true := by
    rw [List.isEmpty_iff]
    exact List.ne_nil_of_mem hmem
  have h1 : (handle_tool_results ctx text_content).session_id_from_tool_call =
      some (pyStrip text_content) := by
    rw [handle_tool_results_session ctx text_content hpre hlen hhy]
  have h2 : final_session_id_for_turn (handle_tool_results ctx text_content) cookie_id =
      some (pyStrip text_content) := by
    rw [final_session_id_for_turn, h1]
    rw [if_pos (by simp [optTruthy, List.isEmpty_iff, List.ne_nil_of_mem hmem])]
  have hrec : session_cleanup_record store (some (pyStrip text_content))
      raw_request_text assistant_content =
      record_turn
        (record_turn store (pyStrip text_content) (("user").toList) raw_request_text)
        (pyStrip text_content) (("assistant").toList) assistant_content := by
    rw [session_cleanup_record, if_neg hnon]
  have hh1 := record_turn_histories store (pyStrip text_content)
    (("user").toList) raw_request_text hnon
  have hh2 := record_turn_histories
    (record_turn store (pyStrip text_content) (("user").toList) raw_request_text)
    (pyStrip text_content) (("assistant").toList) assistant_content hnon
  refine ⟨h1, h2, ?_, ?_⟩
  · rw [h2, hrec, hh2, hh1]
    rw [dictGet_dictSet_self]
    rw [dictGet_dictSet_self]
    simp
  · intro sid hside
    rw [h2, hrec, hh2, hh1]
    rw [dictGet_dictSet_ne _ _ _ hside, dictGet_dictSet_ne _ _ _ hside]

theorem c6_tool_session_id_wins_witness :
    ((("HTTP/").toList).isPrefixOf (("abc-123 ").toList) = false ∧
     (("abc-123 ").toList).length < 100 ∧
     containsSub ['-'] (("abc-123 ").toList) = true) ∧
    ((handle_tool_results initContext (("abc-123 ").toList)).session_id_from_tool_call =
      some (pyStrip (("abc-123 ").toList)) ∧
     final_session_id_for_turn (handle_tool_results initContext (("abc-123 ").toList))
        (some (("cookie-id").toList)) = some (pyStrip (("abc-123 ").toList)) ∧
     dictGet (session_cleanup_record (HttpConversationStore.mk [] [] [])
        (final_session_id_for_turn (handle_tool_results initContext (("abc-123 ").toList))
          (some (("cookie-id").toList)))
        (("GET / HTTP/1.1").toList) (("resp").toList)).histories
        (pyStrip (("abc-123 ").toList)) =
      some ((dictGet (HttpConversationStore.mk [] [] []).histories
          (pyStrip (("abc-123 ").toList))).getD [] ++
        [{ role := ("user").toList, content := ("GET / HTTP/1.1").toList },
         { role := ("assistant").toList, content := ("resp").toList }]) ∧
     (∀ sid, sid ≠ pyStrip (("abc-123 ").toList) →
       dictGet (session_cleanup_record (HttpConversationStore.mk [] [] [])
          (final_session_id_for_turn (handle_tool_results initContext (("abc-123 ").toList))
            (some (("cookie-id").toList)))
          (("GET / HTTP/1.1").toList) (("resp").toList)).histories sid =
         dictGet (HttpConversationStore.mk [] [] []).histories sid)) :=
  ⟨⟨by decide, by decide, by decide⟩,
    c6_tool_session_id_wins initContext (("abc-123 ").toList)
      (some (("cookie-id").toList)) (HttpConversationStore.mk [] [] [])
      (("GET / HTTP/1.1").toList) (("resp").toList)
      (by decide) (by decide) (by decide)⟩

/-! ### C7: per-session lock interleaving model -/

/-- The atomic steps of `record_turn` once the session lock exists in the
lock table (the fast path of `_get_session_lock`, conversation.py line
42-43): await the per-session lock, mutate the history under the lock,
release the lock. -/
inductive LockAction where
  | acquire (sid : List Char)
  | append_turn (sid role text : List Char)
  | release (sid : List Char)
deriving DecidableEq, Repr

/-- Shared state seen by concurrent `record_turn` tasks: which session
locks are held, and the histories dict. -/
structure ConcState where
  held : List (List Char)
  histories : List (List Char × List ChatMessage)
deriving DecidableEq, Repr

/-- A task may take a step unless it is awaiting a session lock that some
task currently holds.  Locks are keyed by session id: distinct ids are
distinct `asyncio.Lock` objects in `_session_locks`. -/
def actionEnabled (cs : ConcState) : LockAction → Bool
  | LockAction.acquire sid => !(cs.held.contains sid)
  | LockAction.append_turn _ _ _ => true
  | LockAction.release _ => true

def applyAction (cs : ConcState) : LockAction → ConcState
  | LockAction.acquire sid => { cs with held := sid :: cs.held }
  | LockAction.append_turn sid role text =>
    { cs with
      histories := dictSet cs.histories sid
        ((dictGet cs.histories sid).getD [] ++ [{ role := role, content := text }]) }
  | LockAction.release sid => { cs with held := cs.held.erase sid }

/-- The step sequence of one `record_turn(sid, role, text)` call
(conversation.py lines 73-79). -/
def record_turn_steps (sid role text : List Char) : List LockAction :=
  [LockAction.acquire sid, LockAction.append_turn sid role text,
   LockAction.release sid]

/-- Run two tasks under a schedule: each `true` lets task one take its
next step, each `false` task two.  The run fails (`none`) when the
scheduled task has no step left or its next step is blocked on a held
lock. -/
def runInterleaved : ConcState → List LockAction → List LockAction → List Bool →
    Option ConcState
  | cs, t1, t2, [] => if t1.isEmpty && t2.isEmpty then some cs else none
  | cs, t1, t2, true :: rest =>
    match t1 with
    | [] => none
    | a :: t1r =>
      if actionEnabled cs a then runInterleaved (applyAction cs a) t1r t2 rest
      else none
  | cs, t1, t2, false :: rest =>
    match t2 with
    | [] => none
    | a :: t2r =>
      if actionEnabled cs a then runInterleaved (applyAction cs a) t1 t2r rest
      else none

/-- C7: session isolation.  For distinct session ids s1 and s2 whose
locks exist in the lock table, every complete interleaving of the two
`record_turn` step sequences runs to completion -- no step of either task
is ever blocked, because each task only acquires the lock keyed by its
own session id -- all locks end up released, and both histories receive
exactly their own appended turn while all other sessions are
untouched. -/
theorem c7_session_isolation (s1 s2 r1 r2 x1 x2 : List Char)
    (hist0 : List (List Char × List ChatMessage)) (hne : s1 ≠ s2)
    (sched : List Bool) (hlen : sched.length = 6) (hcount : sched.count true = 3) :
    (runInterleaved { held := [], histories := hist0 }
        (record_turn_steps s1 r1 x1) (record_turn_steps s2 r2 x2) sched).isSome = true ∧
    (runInterleaved { held := [], histories := hist0 }
        (record_turn_steps s1 r1 x1) (record_turn_steps s2 r2 x2) sched).map
        ConcState.held = some [] ∧
    (runInterleaved { held := [], histories := hist0 }
        (record_turn_steps s1 r1 x1) (record_turn_steps s2 r2 x2) sched).map
        (fun cs => dictGet cs.histories s1) =
      some (some ((dictGet hist0 s1).getD [] ++ [{ role := r1, content := x1 }])) ∧
    (runInterleaved { held := [], histories := hist0 }
        (record_turn_steps s1 r1 x1) (record_turn_steps s2 r2 x2) sched).map
        (fun cs => dictGet cs.histories s2) =
      some (some ((dictGet hist0 s2).getD [] ++ [{ role := r2, content := x2 }])) ∧
    (∀ sid, sid ≠ s1 → sid ≠ s2 →
      (runInterleaved { held := [], histories := hist0 }
          (record_turn_steps s1 r1 x1) (record_turn_steps s2 r2 x2) sched).map
          (fun cs => dictGet cs.histories sid) = some (dictGet hist0 sid)) := by
  have hb12 : (s1 == s2) = false := beq_eq_false_iff_ne.mpr hne
  have hb21 : (s2 == s1) = false := beq_eq_false_iff_ne.mpr (Ne.symm hne)
  have hA : ∀ (h : List (List Char × List ChatMessage)) v1 v2,
      dictGet (dictSet (dictSet h s1 v1) s2 v2) s1 = some v1 := fun h v1 v2 => by
    rw [dictGet_dictSet_ne _ _ _ hne, dictGet_dictSet_self]
  have hB : ∀ (h : List (List Char × List ChatMessage)) v2,
      dictGet (dictSet h s2 v2) s2 = some v2 := fun h v2 => dictGet_dictSet_self s2 v2 h
  have hC : ∀ (h : List (List Char × List ChatMessage)) v1,
      dictGet (dictSet h s1 v1) s1 = some v1 := fun h v1 => dictGet_dictSet_self s1 v1 h
  have hD : ∀ (h : List (List Char × List ChatMessage)) v2 v1,
      dictGet (dictSet (dictSet h s2 v2) s1 v1) s2 = some v2 := fun h v2 v1 => by
    rw [dictGet_dictSet_ne _ _ _ (Ne.symm hne), dictGet_dictSet_self]
  have hE1 : ∀ (h : List (List Char × List ChatMessage)) v,
      dictGet (dictSet h s1 v) s2 = dictGet h s2 := fun h v =>
    dictGet_dictSet_ne _ _ _ (Ne.symm hne) h
  have hE2 : ∀ (h : List (List Char × List ChatMessage)) v,
      dictGet (dictSet h s2 v) s1 = dictGet h s1 := fun h v =>
    dictGet_dictSet_ne _ _ _ hne h
  rcases sched with _ | ⟨a, _ | ⟨b, _ | ⟨c, _ | ⟨d, _ | ⟨e, _ | ⟨f, _ | ⟨g, t⟩⟩⟩⟩⟩⟩⟩ <;>
    simp only [List.length_nil, List.length_cons] at hlen <;>
    try omega
  cases a <;> cases b <;> cases c <;> cases d <;> cases e <;> cases f <;>
    first
      | (exact absurd hcount (by decide))
      | (refine ⟨?_, ?_, ?_, ?_, ?_⟩ <;>
          first
            | (intro sid h1 h2
               simp only [runInterleaved, record_turn_steps, actionEnabled, applyAction,
                 List.contains, List.elem, hb12, hb21, beq_self_eq_true, Bool.not_false,
                 Bool.not_true, if_true, if_false, List.erase, List.isEmpty, Bool.and_self,
                 Option.map_some', dictGet_dictSet_ne _ _ _ h1, dictGet_dictSet_ne _ _ _ h2])
            | simp only [runInterleaved, record_turn_steps, actionEnabled, applyAction,
                List.contains, List.elem, hb12, hb21, beq_self_eq_true, Bool.not_false,
                Bool.not_true, if_true, if_false, List.erase, List.isEmpty, Bool.and_self,
                Option.isSome_some, Option.map_some', hA, hB, hC, hD, hE1, hE2])

theorem c7_session_isolation_witness :
    (("a").toList ≠ ("b").toList ∧
     ([true, true, true, false, false, false] : List Bool).length = 6 ∧
     ([true, true, true, false, false, false] : List Bool).count true = 3) ∧
    ((runInterleaved { held := [], histories := [] }
        (record_turn_steps (("a").toList) (("user").toList) (("x").toList))
        (record_turn_steps (("b").toList) (("user").toList) (("y").toList))
        [true, true, true, false, false, false]).isSome = true ∧
     (runInterleaved { held := [], histories := [] }
        (record_turn_steps (("a").toList) (("user").toList) (("x").toList))
        (record_turn_steps (("b").toList) (("user").toList) (("y").toList))
        [true, true, true, false, false, false]).map ConcState.held = some [] ∧
     (runInterleaved { held := [], histories := [] }
        (record_turn_steps (("a").toList) (("user").toList) (("x").toList))
        (record_turn_steps (("b").toList) (("user").toList) (("y").toList))
        [true, true, true, false, false, false]).map
        (fun cs => dictGet cs.histories (("a").toList)) =
      some (some ((dictGet [] (("a").toList)).getD [] ++
        [{ role := ("user").toList, content := ("x").toList }])) ∧
     (runInterleaved { held := [], histories := [] }
        (record_turn_steps (("a").toList) (("user").toList) (("x").toList))
        (record_turn_steps (("b").toList) (("user").toList) (("y").toList))
        [true, true, true, false, false, false]).map
        (fun cs => dictGet cs.histories (("b").toList)) =
      some (some ((dictGet [] (("b").toList)).getD [] ++
        [{ role := ("user").toList, content := ("y").toList }])) ∧
     (∀ sid, sid ≠ ("a").toList → sid ≠ ("b").toList →
       (runInterleaved { held := [], histories := [] }
          (record_turn_steps (("a").toList) (("user").toList) (("x").toList))
          (record_turn_steps (("b").toList) (("user").toList) (("y").toList))
          [true, true, true, false, false, false]).map
          (fun cs => dictGet cs.histories sid) = some (dictGet [] sid))) :=
  ⟨⟨by decide, by decide, by decide⟩,
    c7_session_isolation (("a").toList) (("b").toList) (("user").toList)
      (("user").toList) (("x").toList) (("y").toList) [] (by decide)
      [true, true, true, false, false, false] (by decide) (by decide)⟩
